import Mathlib

/-!
# photosdb: the photo catalog (main.go)

A shallow embedding of `main.go`: the catalog operations `SavePhoto`, `FindByMD5`,
`FindByDate`, the helpers `calculateMD5` and `getExifInfo`, and the walk callback of
`scanPhotos`.

Conventions.
* A Go function returning `(v, error)` is a pair whose last component is
  `Option ε` (`none` is the nil error); the error type `ε` is arbitrary.
* The database engine behind `*sql.DB` is a parameter (`Driver`): the code only decides
  which command text and which arguments it hands to `Exec` and `Query`.
* The file system and the EXIF decoder are a parameter (`FileSys`), read-only during a scan.
* A `time.Time` is an instant together with its zone; its text rendering under the `%s`
  verb is a parameter (`timeString`).
* Output written with `log.Printf` and `fmt.Printf` does not influence any result and is
  left out.
-/

namespace PhotosDB

/-! ## Data model -/

/-- A Go `byte`. -/
abbrev Byte := Fin 256

/-- A `time.Time` without monotonic clock reading, identified with what it denotes: the
instant (seconds and nanoseconds elapsed since January 1, year 1, 00:00:00 UTC) and the
zone its Location has in effect at that instant (offset east of UTC in seconds, and
abbreviation). What `%s` prints of a time depends on these alone, and on all of them:
`exif.DateTime()` returns its times in `time.Local`, the zero value is in UTC. -/
structure Time where
  sec : Int
  nsec : Nat
  zoneOffset : Int
  zoneName : String
deriving DecidableEq, Repr

/-- The zero value `time.Time{}`: January 1, year 1, 00:00:00 in the zone UTC. -/
def Time.zero : Time := ⟨0, 0, 0, "UTC"⟩

/-- The record `PhotoInfo` of main.go. -/
structure PhotoInfo where
  FilePath : String
  MD5Hash : String
  TakenDate : Time
  CameraModel : String
deriving DecidableEq, Repr

/-- A value handed to `fmt.Sprintf`, `Exec` or `Query`: this program passes strings and
times only. -/
inductive Value where
  | str (s : String)
  | time (t : Time)
deriving DecidableEq, Repr

/-! ## fmt.Sprintf, restricted to the verb the program uses -/

/-- How `%s` prints an operand: a string verbatim, a time through its `String` method. -/
def formatValue (timeString : Time → String) : Value → String
  | .str s => s
  | .time t => timeString t

/-- The formatting loop of `fmt.Sprintf` for formats whose only verb is `%s`: each `%s`
consumes the next operand, a `%s` without operand prints `%!s(MISSING)`, every other
character is copied. -/
def sprintfChars (timeString : Time → String) : List Char → List Value → List Char
  | [], _ => []
  | '%' :: 's' :: rest, [] =>
      "%!s(MISSING)".toList ++ sprintfChars timeString rest []
  | '%' :: 's' :: rest, a :: args =>
      (formatValue timeString a).toList ++ sprintfChars timeString rest args
  | c :: rest, args => c :: sprintfChars timeString rest args

/-- The call `fmt.Sprintf(format, args...)`. -/
def Sprintf (timeString : Time → String) (format : String) (args : List Value) : String :=
  String.mk (sprintfChars timeString format.toList args)

/-! ## The catalog store -/

/-- The format string of `SavePhoto`. -/
def savePhotoFormat : String :=
  "INSERT INTO photos (file_path, md5_hash, taken_date, camera_model)\n VALUES ('%s', '%s', '%s', '%s')"

/-- The format string of `FindByMD5`. -/
def findByMD5Format : String :=
  "\n SELECT file_path, md5_hash, taken_date, camera_model\n FROM photos\n WHERE md5_hash = %s\n "

/-- The format string of `FindByDate`. -/
def findByDateFormat : String :=
  "SELECT file_path, md5_hash, taken_date, camera_model\nFROM photos\nWHERE DATE(taken_date) = DATE(%s)"

/-- The local `query` of `SavePhoto`: the command text handed to `db.Exec`. -/
def savePhotoQuery (timeString : Time → String) (photo : PhotoInfo) : String :=
  Sprintf timeString savePhotoFormat
    [.str photo.FilePath, .str photo.MD5Hash, .time photo.TakenDate, .str photo.CameraModel]

/-- The arguments `SavePhoto` hands to `db.Exec` after the command text. -/
def savePhotoArgs (photo : PhotoInfo) : List Value :=
  [.str photo.FilePath, .str photo.MD5Hash, .time photo.TakenDate, .str photo.CameraModel]

/-- The local `query` of `FindByMD5`: the query text handed to `db.Query`. -/
def findByMD5Query (timeString : Time → String) (hash : String) : String :=
  Sprintf timeString findByMD5Format [.str hash]

/-- The local `query` of `FindByDate`: the query text handed to `db.Query`. -/
def findByDateQuery (timeString : Time → String) (date : Time) : String :=
  Sprintf timeString findByDateFormat [.time date]

/-- The database engine behind `*sql.DB`, over its state `σ`: what `Exec` and `Query` do
with a command text and its arguments. `Exec` yields the new state and the error;
`Query` yields the rows, each row being the outcome of `rows.Scan` on it. -/
structure Driver (σ ε : Type) where
  Exec : σ → String → List Value → σ × Option ε
  Query : σ → String → List Value → σ × Except ε (List (Except ε PhotoInfo))

/-- The method `SavePhoto`: formats the command text and executes it with the four fields
as arguments; the error of `Exec` is returned. -/
def SavePhoto {σ ε : Type} (timeString : Time → String) (db : Driver σ ε) (s : σ)
    (photo : PhotoInfo) : σ × Option ε :=
  let query := savePhotoQuery timeString photo
  db.Exec s query (savePhotoArgs photo)

/-- The row loop shared by `FindByMD5` and `FindByDate`: scan each row and append it; the
first scan error ends the loop and is returned with no result. -/
def scanRows {ε : Type} : List (Except ε PhotoInfo) → List PhotoInfo → List PhotoInfo × Option ε
  | [], photos => (photos, none)
  | .error err :: _, _ => ([], some err)
  | .ok photo :: rest, photos => scanRows rest (photos ++ [photo])

/-- The method `FindByMD5`. -/
def FindByMD5 {σ ε : Type} (timeString : Time → String) (db : Driver σ ε) (s : σ)
    (hash : String) : σ × List PhotoInfo × Option ε :=
  let query := findByMD5Query timeString hash
  match db.Query s query [.str hash] with
  | (s1, .error err) => (s1, [], some err)
  | (s1, .ok rows) => (s1, scanRows rows [])

/-- The method `FindByDate`. -/
def FindByDate {σ ε : Type} (timeString : Time → String) (db : Driver σ ε) (s : σ)
    (date : Time) : σ × List PhotoInfo × Option ε :=
  let query := findByDateQuery timeString date
  match db.Query s query [.time date] with
  | (s1, .error err) => (s1, [], some err)
  | (s1, .ok rows) => (s1, scanRows rows [])

/-- The two entry points of the engine the program uses. -/
inductive Op where
  | exec
  | query
deriving DecidableEq, Repr

/-- One call received by the engine: the entry point, the command text and the arguments. -/
structure Call where
  op : Op
  query : String
  args : List Value
deriving DecidableEq, Repr

/-- The engine `db` observed: the state also records every call received, in order. -/
def Driver.traced {σ ε : Type} (db : Driver σ ε) : Driver (σ × List Call) ε where
  Exec := fun st query args =>
    (((db.Exec st.1 query args).1, st.2 ++ [⟨.exec, query, args⟩]), (db.Exec st.1 query args).2)
  Query := fun st query args =>
    (((db.Query st.1 query args).1, st.2 ++ [⟨.query, query, args⟩]),
      (db.Query st.1 query args).2)

/-! ## crypto/md5 and encoding/hex -/

/-- The per-round left-rotation amounts of MD5. -/
def md5Shifts : List Nat :=
  [7, 12, 17, 22, 7, 12, 17, 22, 7, 12, 17, 22, 7, 12, 17, 22,
   5, 9, 14, 20, 5, 9, 14, 20, 5, 9, 14, 20, 5, 9, 14, 20,
   4, 11, 16, 23, 4, 11, 16, 23, 4, 11, 16, 23, 4, 11, 16, 23,
   6, 10, 15, 21, 6, 10, 15, 21, 6, 10, 15, 21, 6, 10, 15, 21]

/-- The sine-derived constants of MD5. -/
def md5Consts : List Nat :=
  [0xd76aa478, 0xe8c7b756, 0x242070db, 0xc1bdceee,
   0xf57c0faf, 0x4787c62a, 0xa8304613, 0xfd469501,
   0x698098d8, 0x8b44f7af, 0xffff5bb1, 0x895cd7be,
   0x6b901122, 0xfd987193, 0xa679438e, 0x49b40821,
   0xf61e2562, 0xc040b340, 0x265e5a51, 0xe9b6c7aa,
   0xd62f105d, 0x02441453, 0xd8a1e681, 0xe7d3fbc8,
   0x21e1cde6, 0xc33707d6, 0xf4d50d87, 0x455a14ed,
   0xa9e3e905, 0xfcefa3f8, 0x676f02d9, 0x8d2a4c8a,
   0xfffa3942, 0x8771f681, 0x6d9d6122, 0xfde5380c,
   0xa4beea44, 0x4bdecfa9, 0xf6bb4b60, 0xbebfbc70,
   0x289b7ec6, 0xeaa127fa, 0xd4ef3085, 0x04881d05,
   0xd9d4d039, 0xe6db99e5, 0x1fa27cf8, 0xc4ac5665,
   0xf4292244, 0x432aff97, 0xab9423a7, 0xfc93a039,
   0x655b59c3, 0x8f0ccc92, 0xffeff47d, 0x85845dd1,
   0x6fa87e4f, 0xfe2ce6e0, 0xa3014314, 0x4e0811a1,
   0xf7537e82, 0xbd3af235, 0x2ad7d2bb, 0xeb86d391]

/-- Rotate a 32-bit word left by `c` bits. -/
def rotl32 (x c : Nat) : Nat :=
  ((x <<< c) ||| (x >>> (32 - c))) % 2 ^ 32

/-- Bitwise complement of a 32-bit word. -/
def not32 (x : Nat) : Nat :=
  (x % 2 ^ 32) ^^^ 0xffffffff

/-- The message followed by the MD5 padding: the byte 0x80, zero bytes up to 56 modulo 64,
and the bit length as 8 little-endian bytes. -/
def md5Pad (msg : List Nat) : List Nat :=
  let bits := (8 * msg.length) % 2 ^ 64
  msg ++ [0x80] ++ List.replicate ((119 - msg.length % 64) % 64) 0
    ++ (List.range 8).map (fun i => (bits >>> (8 * i)) % 256)

/-- The little-endian 32-bit word number `j` of a block of bytes. -/
def md5Word (block : List Nat) (j : Nat) : Nat :=
  block.getD (4 * j) 0 + 256 * block.getD (4 * j + 1) 0
    + 65536 * block.getD (4 * j + 2) 0 + 16777216 * block.getD (4 * j + 3) 0

/-- Step `i` of the MD5 block function on the working registers. -/
def md5Step (block : List Nat) (r : Nat × Nat × Nat × Nat) (i : Nat) : Nat × Nat × Nat × Nat :=
  let (a, b, c, d) := r
  let f :=
    if i < 16 then (b &&& c) ||| (not32 b &&& d)
    else if i < 32 then (d &&& b) ||| (not32 d &&& c)
    else if i < 48 then b ^^^ c ^^^ d
    else c ^^^ (b ||| not32 d)
  let g :=
    if i < 16 then i
    else if i < 32 then (5 * i + 1) % 16
    else if i < 48 then (3 * i + 5) % 16
    else (7 * i) % 16
  let t := (f + a + md5Consts.getD i 0 + md5Word block g) % 2 ^ 32
  (d, (b + rotl32 t (md5Shifts.getD i 0)) % 2 ^ 32, b, c)

/-- The MD5 block function: 64 steps on one 64-byte block, added into the state. -/
def md5Block (st : Nat × Nat × Nat × Nat) (block : List Nat) : Nat × Nat × Nat × Nat :=
  let r := (List.range 64).foldl (md5Step block) st
  ((st.1 + r.1) % 2 ^ 32, (st.2.1 + r.2.1) % 2 ^ 32, (st.2.2.1 + r.2.2.1) % 2 ^ 32,
    (st.2.2.2 + r.2.2.2) % 2 ^ 32)

/-- The state of MD5 after all blocks of the padded message. -/
def md5State (msg : List Nat) : Nat × Nat × Nat × Nat :=
  let padded := md5Pad msg
  (List.range (padded.length / 64)).foldl
    (fun st k => md5Block st ((padded.drop (64 * k)).take 64))
    (0x67452301, 0xefcdab89, 0x98badcfe, 0x10325476)

/-- Byte number `k` of a number. -/
def byteOf (w k : Nat) : Byte :=
  ⟨(w >>> (8 * k)) % 256, Nat.mod_lt _ (by decide)⟩

/-- A 32-bit word as 4 little-endian bytes. -/
def le32 (w : Nat) : List Byte :=
  [byteOf w 0, byteOf w 1, byteOf w 2, byteOf w 3]

/-- The digest `md5.New()` yields with `Sum(nil)` once `msg` is written to it. -/
def md5Sum (msg : List Byte) : List Byte :=
  let st := md5State (msg.map Fin.val)
  le32 st.1 ++ le32 st.2.1 ++ le32 st.2.2.1 ++ le32 st.2.2.2

/-- The constant `hextable` of encoding/hex. -/
def hextable : List Char := "0123456789abcdef".toList

/-- The function `hex.EncodeToString`: two characters of `hextable` for each byte, the
high half first. -/
def hexEncodeToString (src : List Byte) : String :=
  String.mk (src.flatMap fun v => [hextable.getD (v.val / 16) '0', hextable.getD (v.val % 16) '0'])

/-! ## Files and metadata -/

/-- An open file: what reading it to the end yields, all its bytes or a read error. -/
structure File (ε : Type) where
  contents : Except ε (List Byte)

/-- A tag of a decoded metadata block with its accessor `StringVal`, which returns the
string of a string-valued tag and an empty string with an error otherwise. -/
structure Tag (ε : Type) where
  StringVal : Except ε String

/-- A decoded metadata block `*exif.Exif` with the two accessors the program uses:
`DateTime()` and `Get(exif.Model)`. -/
structure Exif (ε : Type) where
  DateTime : Except ε Time
  GetModel : Except ε (Tag ε)

/-- The file system and the metadata decoder: `os.Open` and `exif.Decode`. -/
structure FileSys (ε : Type) where
  Open : String → Except ε (File ε)
  Decode : File ε → Except ε (Exif ε)

/-- The function `calculateMD5`. -/
def calculateMD5 {ε : Type} (fs : FileSys ε) (filePath : String) : String × Option ε :=
  match fs.Open filePath with
  | .error err => ("", some err)
  | .ok file =>
    match file.contents with
    | .error err => ("", some err)
    | .ok bytes => (hexEncodeToString (md5Sum bytes), none)

/-- The function `getExifInfo`. -/
def getExifInfo {ε : Type} (fs : FileSys ε) (filePath : String) : Time × String × Option ε :=
  match fs.Open filePath with
  | .error err => (Time.zero, "", some err)
  | .ok file =>
    match fs.Decode file with
    | .error err => (Time.zero, "", some err)
    | .ok x =>
      let datetime :=
        match x.DateTime with
        | .ok t => t
        | .error _ => Time.zero
      let cameraModel :=
        match x.GetModel with
        | .error _ => ""
        | .ok model =>
          match model.StringVal with
          | .ok v => v
          | .error _ => ""
      (datetime, cameraModel, none)

/-! ## The scan -/

/-- The loop of `filepath.Ext`, scanning the path from its end up to the separator `/`: the
suffix from the last dot of the last path element, empty when that element has no dot. The
first argument is the part of the path not yet visited, reversed; the second the part
already visited. A dot and a slash are single bytes, so scanning the characters of a path
agrees with scanning its bytes. -/
def extFrom : List Char → List Char → List Char
  | [], _ => []
  | c :: before, after =>
    if c = '/' then []
    else if c = '.' then c :: after
    else extFrom before (c :: after)

/-- The function `filepath.Ext`. -/
def Ext (path : String) : String :=
  String.mk (extFrom path.toList.reverse [])

/-- One call of the walk function by `filepath.Walk`: the path, whether the entry is a
directory (read only when `err` is nil), and the error the walk met at this entry. -/
structure WalkEntry (ε : Type) where
  path : String
  isDir : Bool
  err : Option ε

/-- The walk function `scanPhotos` passes to `filepath.Walk`. -/
def walkFn {σ ε : Type} (timeString : Time → String) (db : Driver σ ε) (fs : FileSys ε)
    (s : σ) (entry : WalkEntry ε) : σ × Option ε :=
  match entry.err with
  | some err => (s, some err)
  | none =>
    if entry.isDir then (s, none)
    else
      let ext := Ext entry.path
      if ext ≠ ".jpg" ∧ ext ≠ ".jpeg" ∧ ext ≠ ".png" then (s, none)
      else
        match calculateMD5 fs entry.path with
        | (_, some err) => (s, some err)
        | (hash, none) =>
          let info := getExifInfo fs entry.path
          let photo : PhotoInfo :=
            { FilePath := entry.path, MD5Hash := hash, TakenDate := info.1,
              CameraModel := info.2.1 }
          SavePhoto timeString db s photo

/-- The function `filepath.Walk` on the sequence of entries it visits: the walk function is
called on each in turn and its first error ends the walk and is returned. The errors of
this program come from the operating system, the hash and the engine, none of them the
control value `SkipDir` or `SkipAll`. -/
def Walk {σ ε : Type} (fn : σ → WalkEntry ε → σ × Option ε) : σ → List (WalkEntry ε) → σ × Option ε
  | s, [] => (s, none)
  | s, entry :: rest =>
    match fn s entry with
    | (s1, some err) => (s1, some err)
    | (s1, none) => Walk fn s1 rest

/-- The function `scanPhotos`, on the sequence of entries the walk of `rootPath` visits. -/
def scanPhotos {σ ε : Type} (timeString : Time → String) (db : Driver σ ε) (fs : FileSys ε)
    (s : σ) (walk : List (WalkEntry ε)) : σ × Option ε :=
  Walk (walkFn timeString db fs) s walk

/-! ## Vocabulary of the statements -/

/-- An entry the scan takes for a photo: not a directory, with extension `.jpg`, `.jpeg` or
`.png`. -/
def isPhoto {ε : Type} (entry : WalkEntry ε) : Bool :=
  !entry.isDir && decide (Ext entry.path ∈ [".jpg", ".jpeg", ".png"])

/-- The record the walk function assembles for an entry: its path, the result of
`calculateMD5` and the two values of `getExifInfo`. -/
def photoAt {ε : Type} (fs : FileSys ε) (entry : WalkEntry ε) : PhotoInfo :=
  { FilePath := entry.path, MD5Hash := (calculateMD5 fs entry.path).1,
    TakenDate := (getExifInfo fs entry.path).1, CameraModel := (getExifInfo fs entry.path).2.1 }

/-- The call an insert attempt for `photo` makes to the engine. -/
def insertCall (timeString : Time → String) (photo : PhotoInfo) : Call :=
  ⟨.exec, savePhotoQuery timeString photo, savePhotoArgs photo⟩

/-- The entry gets as far as the insert: no walk error, a photo entry, the hash computed. -/
def reachesInsert {ε : Type} (fs : FileSys ε) (entry : WalkEntry ε) : Bool :=
  entry.err.isNone && isPhoto entry && (calculateMD5 fs entry.path).2.isNone

/-- The state of the engine after the insert attempts for the photo entries of `entries`,
made in order from the state `s`. -/
def afterInserts {σ ε : Type} (timeString : Time → String) (db : Driver σ ε) (fs : FileSys ε)
    (s : σ) (entries : List (WalkEntry ε)) : σ :=
  (entries.filter isPhoto).foldl (fun st e => (SavePhoto timeString db st (photoAt fs e)).1) s

/-- The capture time the metadata of the file at `filePath` carries, when the file opens,
its metadata block decodes and the block has a time. -/
def captureTime {ε : Type} (fs : FileSys ε) (filePath : String) : Option Time :=
  match fs.Open filePath with
  | .error _ => none
  | .ok file =>
    match fs.Decode file with
    | .error _ => none
    | .ok x =>
      match x.DateTime with
      | .ok t => some t
      | .error _ => none

/-- The characters of a string with the letters A to Z turned to lower case. -/
def lowerChars (s : String) : List Char :=
  s.toList.map Char.toLower

/-! ## A small tree for the examples

The tree of the end-to-end scenario: `a.jpg` with contents `abc` and a metadata block,
`b.png` empty and without metadata, `c.txt`; with them `A.JPG`, a copy of `a.jpg`,
`torn.jpg`, which opens and fails while read, and files that do not open, as
`locked.jpg`. -/

/-- The time 2023-06-01T10:00:00 in the zone UTC. -/
def exampleTime : Time := ⟨63821210400, 0, 0, "UTC"⟩

/-- The instant of the zero time in the zone of Berlin, which at that instant is local mean
time, 53 minutes and 28 seconds east of UTC: what `DateTime()` returns there for a metadata
block with the text 0001:01:01 00:53:28. -/
def berlinZeroInstant : Time := ⟨0, 0, 3208, "LMT"⟩

/-- The rendering of the three times of the examples under `%s`. -/
def exampleTimeString (t : Time) : String :=
  if t = Time.zero then "0001-01-01 00:00:00 +0000 UTC"
  else if t = berlinZeroInstant then "0001-01-01 00:53:28 +0053 LMT"
  else "2023-06-01 10:00:00 +0000 UTC"

/-- The example tree, the metadata block of `a.jpg` giving `dateTime` as the outcome of
`DateTime()` and the model `CamA`; only a file with contents has a metadata block. -/
def exampleFS (dateTime : Except String Time) : FileSys String where
  Open := fun path =>
    if path = "a.jpg" ∨ path = "A.JPG" then .ok ⟨.ok [97, 98, 99]⟩
    else if path = "b.png" then .ok ⟨.ok []⟩
    else if path = "c.txt" then .ok ⟨.ok [104, 105]⟩
    else if path = "torn.jpg" then .ok ⟨.error "unexpected EOF"⟩
    else .error "permission denied"
  Decode := fun file =>
    match file.contents with
    | .ok (_ :: _) => .ok ⟨dateTime, .ok ⟨.ok "CamA"⟩⟩
    | _ => .error "exif: failed to find exif intro marker"

/-- An engine for the examples: its state is the list of rows, `Exec` appends the
arguments as a row and never fails, `Query` finds nothing. -/
def exampleDB : Driver (List (List Value)) String where
  Exec := fun st _ args => (st ++ [args], none)
  Query := fun st _ _ => (st, .ok [])

/-- Whether the text `needle` occurs in `text`. -/
def containsText (needle text : String) : Bool :=
  text.toList.tails.any (fun t => needle.toList.isPrefixOf t)

/-- An engine for the file name of C5. Like go-sqlite3 it runs the statements of a command
one after the other with no transaction around them; of SQL it knows this much: a command
with the statement BOGUS after its insert fails at that statement, the row
('m', 'h', 't', 'm') of the insert before it kept; any other command appends its
arguments as a row. -/
def strayRowDB : Driver (List (List Value)) String where
  Exec := fun st query args =>
    if containsText "); BOGUS;" query then
      (st ++ [[.str "m", .str "h", .str "t", .str "m"]], some "near BOGUS: syntax error")
    else (st ++ [args], none)
  Query := fun st _ _ => (st, .ok [])

/-- A tree in which every file opens, is empty and has no metadata block. -/
def emptyFilesFS : FileSys String where
  Open := fun _ => .ok ⟨.ok []⟩
  Decode := fun _ => .error "exif: failed to find exif intro marker"

/-! ## The command texts -/

/-- The command text of `SavePhoto`, written out. -/
theorem savePhotoQuery_eq (timeString : Time → String) (photo : PhotoInfo) :
    savePhotoQuery timeString photo =
      "INSERT INTO photos (file_path, md5_hash, taken_date, camera_model)\n VALUES ('"
        ++ photo.FilePath ++ "', '" ++ photo.MD5Hash ++ "', '"
        ++ timeString photo.TakenDate ++ "', '" ++ photo.CameraModel ++ "')" := by
  apply String.ext
  simp [savePhotoQuery, Sprintf, savePhotoFormat, sprintfChars, formatValue]

/-- The query text of `FindByMD5`, written out. -/
theorem findByMD5Query_eq (timeString : Time → String) (hash : String) :
    findByMD5Query timeString hash =
      "\n SELECT file_path, md5_hash, taken_date, camera_model\n FROM photos\n WHERE md5_hash = "
        ++ hash ++ "\n " := by
  apply String.ext
  simp [findByMD5Query, Sprintf, findByMD5Format, sprintfChars, formatValue]

/-- The query text of `FindByDate`, written out. -/
theorem findByDateQuery_eq (timeString : Time → String) (date : Time) :
    findByDateQuery timeString date =
      "SELECT file_path, md5_hash, taken_date, camera_model\nFROM photos\nWHERE DATE(taken_date) = DATE("
        ++ timeString date ++ ")" := by
  apply String.ext
  simp [findByDateQuery, Sprintf, findByDateFormat, sprintfChars, formatValue]

/-- On an observed engine `SavePhoto` does what it does on the engine and records its one
call. -/
theorem SavePhoto_traced {σ ε : Type} (timeString : Time → String) (db : Driver σ ε)
    (st : σ × List Call) (photo : PhotoInfo) :
    SavePhoto timeString db.traced st photo =
      (((SavePhoto timeString db st.1 photo).1,
        st.2 ++ [⟨.exec, savePhotoQuery timeString photo, savePhotoArgs photo⟩]),
        (SavePhoto timeString db st.1 photo).2) := rfl

/-- C1 (the code departs from it): on every engine and for every photo, the one command
`SavePhoto` issues has the file path, the hash, the rendered capture time and the camera
model spliced into its text between quotes. Two photos that differ in their path alone get
different command texts, and a path that holds a quote and a statement separator, a file
name the scan takes for a photo by its extension, yields a text with a second statement in
it. -/
theorem SavePhoto_command_text_holds_fields {σ ε : Type} (timeString : Time → String)
    (db : Driver σ ε) (s : σ) :
    (∀ photo : PhotoInfo,
      (SavePhoto timeString db.traced (s, []) photo).1.2 =
        [⟨.exec,
          "INSERT INTO photos (file_path, md5_hash, taken_date, camera_model)\n VALUES ('"
            ++ photo.FilePath ++ "', '" ++ photo.MD5Hash ++ "', '"
            ++ timeString photo.TakenDate ++ "', '" ++ photo.CameraModel ++ "')",
          [.str photo.FilePath, .str photo.MD5Hash, .time photo.TakenDate,
            .str photo.CameraModel]⟩])
    ∧ (SavePhoto timeString db.traced (s, []) ⟨"a.jpg", "h", Time.zero, "m"⟩).1.2.map Call.query
        ≠ (SavePhoto timeString db.traced (s, []) ⟨"b.jpg", "h", Time.zero, "m"⟩).1.2.map
            Call.query
    ∧ (SavePhoto timeString db.traced (s, [])
          ⟨"x', 'h', 't', 'm'); DELETE FROM photos; --.jpg", "h", Time.zero, "m"⟩).1.2.map
            Call.query =
        ["INSERT INTO photos (file_path, md5_hash, taken_date, camera_model)\n VALUES ('x', 'h', 't', 'm'); DELETE FROM photos; --.jpg', 'h', '"
          ++ timeString Time.zero ++ "', 'm')"]
    ∧ Ext "x', 'h', 't', 'm'); DELETE FROM photos; --.jpg" = ".jpg" := by
  refine ⟨fun photo => ?_, ?_, ?_, by decide⟩
  · simp [SavePhoto_traced, savePhotoQuery_eq, savePhotoArgs]
  · simp only [SavePhoto_traced, savePhotoQuery_eq]
    intro h
    have h2 := congrArg (fun l => l.map String.data) h
    simp at h2
  · simp only [SavePhoto_traced, savePhotoQuery_eq]
    simp
    apply String.ext
    simp

/-- On an observed engine `FindByMD5` records one query call. -/
theorem FindByMD5_traced_calls {σ ε : Type} (timeString : Time → String) (db : Driver σ ε)
    (st : σ × List Call) (hash : String) :
    (FindByMD5 timeString db.traced st hash).1.2 =
      st.2 ++ [⟨.query, findByMD5Query timeString hash, [.str hash]⟩] := by
  unfold FindByMD5
  simp only [Driver.traced]
  cases (db.Query st.1 (findByMD5Query timeString hash) [Value.str hash]).2 <;> rfl

/-- On an observed engine `FindByDate` records one query call. -/
theorem FindByDate_traced_calls {σ ε : Type} (timeString : Time → String) (db : Driver σ ε)
    (st : σ × List Call) (date : Time) :
    (FindByDate timeString db.traced st date).1.2 =
      st.2 ++ [⟨.query, findByDateQuery timeString date, [.time date]⟩] := by
  unfold FindByDate
  simp only [Driver.traced]
  cases (db.Query st.1 (findByDateQuery timeString date) [Value.time date]).2 <;> rfl

/-- C2 (the code departs from it): on every engine, the one query `FindByMD5` issues for a
hash has that hash spliced, unquoted, into its text, and the one query `FindByDate` issues
for a date has the rendered date spliced into its text; two different hashes get two
different query texts. -/
theorem FindBy_query_text_holds_value {σ ε : Type} (timeString : Time → String)
    (db : Driver σ ε) (s : σ) :
    (∀ hash : String,
      (FindByMD5 timeString db.traced (s, []) hash).1.2 =
        [⟨.query,
          "\n SELECT file_path, md5_hash, taken_date, camera_model\n FROM photos\n WHERE md5_hash = "
            ++ hash ++ "\n ",
          [.str hash]⟩])
    ∧ (∀ date : Time,
      (FindByDate timeString db.traced (s, []) date).1.2 =
        [⟨.query,
          "SELECT file_path, md5_hash, taken_date, camera_model\nFROM photos\nWHERE DATE(taken_date) = DATE("
            ++ timeString date ++ ")",
          [.time date]⟩])
    ∧ (FindByMD5 timeString db.traced (s, []) "0cc175b9c0f1b6a831c399e269772661").1.2.map
          Call.query
        ≠ (FindByMD5 timeString db.traced (s, []) "900150983cd24fb0d6963f7d28e17f72").1.2.map
            Call.query := by
  refine ⟨fun hash => ?_, fun date => ?_, ?_⟩
  · simp [FindByMD5_traced_calls, findByMD5Query_eq]
  · simp [FindByDate_traced_calls, findByDateQuery_eq]
  · simp only [FindByMD5_traced_calls, findByMD5Query_eq]
    intro h
    have h2 := congrArg (fun l => l.map String.data) h
    simp at h2

set_option maxRecDepth 100000 in
/-- C3 (the code departs from it): for the photo with hash
d41d8cd98f00b204e9800998ecf8427e, the hash of a file without bytes, `SavePhoto` stores the hash as the quoted literal
'd41d8cd98f00b204e9800998ecf8427e', while the query `FindByMD5` then issues compares the
column md5_hash with the bare word d41d8cd98f00b204e9800998ecf8427e, which stands in the
text where a column name or a number does, not a string; and whatever error the engine
answers to that text is the result of `FindByMD5`, with no record. -/
theorem roundTrip_commands_at_empty_file_hash {σ ε : Type} (timeString : Time → String)
    (db : Driver σ ε) (s : σ) :
    (SavePhoto timeString db.traced (s, [])
        ⟨"a.jpg", "d41d8cd98f00b204e9800998ecf8427e", Time.zero, ""⟩).1.2.map Call.query =
      ["INSERT INTO photos (file_path, md5_hash, taken_date, camera_model)\n VALUES ('a.jpg', 'd41d8cd98f00b204e9800998ecf8427e', '"
        ++ timeString Time.zero ++ "', '')"]
    ∧ (FindByMD5 timeString db.traced (s, []) "d41d8cd98f00b204e9800998ecf8427e").1.2 =
      [⟨.query,
        "\n SELECT file_path, md5_hash, taken_date, camera_model\n FROM photos\n WHERE md5_hash = d41d8cd98f00b204e9800998ecf8427e\n ",
        [.str "d41d8cd98f00b204e9800998ecf8427e"]⟩]
    ∧ FindByMD5 timeString db s "d41d8cd98f00b204e9800998ecf8427e" =
      (match db.Query s
          "\n SELECT file_path, md5_hash, taken_date, camera_model\n FROM photos\n WHERE md5_hash = d41d8cd98f00b204e9800998ecf8427e\n "
          [.str "d41d8cd98f00b204e9800998ecf8427e"] with
      | (s1, .error err) => (s1, [], some err)
      | (s1, .ok rows) => (s1, scanRows rows []))
    ∧ hexEncodeToString (md5Sum []) = "d41d8cd98f00b204e9800998ecf8427e" := by
  have hq : findByMD5Query timeString "d41d8cd98f00b204e9800998ecf8427e" =
      "\n SELECT file_path, md5_hash, taken_date, camera_model\n FROM photos\n WHERE md5_hash = d41d8cd98f00b204e9800998ecf8427e\n " := by
    rw [findByMD5Query_eq]
    apply String.ext
    simp
  refine ⟨?_, ?_, ?_, by decide⟩
  · simp only [SavePhoto_traced, savePhotoQuery_eq]
    simp
    apply String.ext
    simp
  · rw [FindByMD5_traced_calls, hq]
    rfl
  · unfold FindByMD5
    rw [hq]

/-! ## The walk function, case by case -/

/-- A walk error is returned as it is, the state untouched. -/
theorem walkFn_err {σ ε : Type} (timeString : Time → String) (db : Driver σ ε)
    (fs : FileSys ε) (s : σ) (entry : WalkEntry ε) (err : ε) (h : entry.err = some err) :
    walkFn timeString db fs s entry = (s, some err) := by
  simp [walkFn, h]

/-- A directory or an entry with another extension is passed over. -/
theorem walkFn_skip {σ ε : Type} (timeString : Time → String) (db : Driver σ ε)
    (fs : FileSys ε) (s : σ) (entry : WalkEntry ε) (h : entry.err = none)
    (hp : isPhoto entry = false) :
    walkFn timeString db fs s entry = (s, none) := by
  unfold walkFn
  simp only [h]
  by_cases hd : entry.isDir = true
  · simp [hd]
  · simp only [hd, Bool.false_eq_true, if_false]
    simp [isPhoto, hd] at hp
    simp [hp]

/-- The error of `calculateMD5` on a photo entry is returned, the state untouched. -/
theorem walkFn_hash_err {σ ε : Type} (timeString : Time → String) (db : Driver σ ε)
    (fs : FileSys ε) (s : σ) (entry : WalkEntry ε) (err : ε) (h : entry.err = none)
    (hp : isPhoto entry = true) (hh : (calculateMD5 fs entry.path).2 = some err) :
    walkFn timeString db fs s entry = (s, some err) := by
  unfold walkFn
  simp only [h]
  simp [isPhoto] at hp
  obtain ⟨hd, hx⟩ := hp
  have hne : ¬ (Ext entry.path ≠ ".jpg" ∧ Ext entry.path ≠ ".jpeg" ∧ Ext entry.path ≠ ".png") := by
    rcases hx with h1 | h1 | h1 <;> simp [h1]
  simp only [hd, Bool.false_eq_true, if_false, hne]
  rcases hc : calculateMD5 fs entry.path with ⟨hash, e⟩
  rw [hc] at hh
  simp only at hh
  subst hh
  rfl

/-- A photo entry whose hash is computed is handed to `SavePhoto`. -/
theorem walkFn_save {σ ε : Type} (timeString : Time → String) (db : Driver σ ε)
    (fs : FileSys ε) (s : σ) (entry : WalkEntry ε) (h : entry.err = none)
    (hp : isPhoto entry = true) (hh : (calculateMD5 fs entry.path).2 = none) :
    walkFn timeString db fs s entry = SavePhoto timeString db s (photoAt fs entry) := by
  unfold walkFn
  simp only [h]
  simp [isPhoto] at hp
  obtain ⟨hd, hx⟩ := hp
  have hne : ¬ (Ext entry.path ≠ ".jpg" ∧ Ext entry.path ≠ ".jpeg" ∧ Ext entry.path ≠ ".png") := by
    rcases hx with h1 | h1 | h1 <;> simp [h1]
  simp only [hd, Bool.false_eq_true, if_false, hne]
  unfold photoAt
  rcases hc : calculateMD5 fs entry.path with ⟨hash, e⟩
  rw [hc] at hh
  simp only at hh
  subst hh
  rfl

/-! ## The hash -/

/-- An MD5 digest has 16 bytes. -/
theorem md5Sum_length (msg : List Byte) : (md5Sum msg).length = 16 := by
  simp [md5Sum, le32]

/-- Every half byte indexes a character of `hextable`. -/
theorem hextable_getD_mem (i : Nat) (h : i < 16) : hextable.getD i '0' ∈ hextable := by
  interval_cases i <;> simp [hextable]

/-- The hex encoding has two characters for each byte. -/
theorem hexEncodeToString_length (src : List Byte) :
    (hexEncodeToString src).length = 2 * src.length := by
  unfold hexEncodeToString
  simp only [String.length]
  induction src with
  | nil => rfl
  | cons v rest ih =>
    simp only [List.flatMap_cons, List.length_append, List.length_cons, List.length_nil, ih]
    omega

/-- The hex encoding consists of characters of `hextable`. -/
theorem hexEncodeToString_chars (src : List Byte) :
    ∀ c ∈ (hexEncodeToString src).toList, c ∈ hextable := by
  intro c hc
  simp only [hexEncodeToString, String.toList, List.mem_flatMap, List.mem_cons,
    List.mem_singleton, List.not_mem_nil, or_false] at hc
  obtain ⟨v, _, hv⟩ := hc
  rcases hv with hv | hv
  · rw [hv]
    exact hextable_getD_mem _ (by omega)
  · rw [hv]
    exact hextable_getD_mem _ (Nat.mod_lt _ (by decide))

/-- C9: when the file opens and reads to its end, `calculateMD5` returns no error and the
hex encoding of the MD5 digest of all the bytes read; the digest has 16 bytes and the
string 32 characters, each one of 0123456789abcdef. When the file does not open, or a read
fails, it returns that error and the empty string. -/
theorem calculateMD5_spec {ε : Type} (fs : FileSys ε) (filePath : String) :
    (∀ file bytes, fs.Open filePath = .ok file → file.contents = .ok bytes →
      calculateMD5 fs filePath = (hexEncodeToString (md5Sum bytes), none)
      ∧ (md5Sum bytes).length = 16
      ∧ (calculateMD5 fs filePath).1.length = 32
      ∧ ∀ c ∈ (calculateMD5 fs filePath).1.toList, c ∈ "0123456789abcdef".toList)
    ∧ (∀ err, fs.Open filePath = .error err → calculateMD5 fs filePath = ("", some err))
    ∧ (∀ file err, fs.Open filePath = .ok file → file.contents = .error err →
      calculateMD5 fs filePath = ("", some err)) := by
  refine ⟨fun file bytes ho hr => ?_, fun err ho => ?_, fun file err ho hr => ?_⟩
  · have hc : calculateMD5 fs filePath = (hexEncodeToString (md5Sum bytes), none) := by
      simp [calculateMD5, ho, hr]
    refine ⟨hc, md5Sum_length bytes, ?_, ?_⟩
    · rw [hc]
      simp [hexEncodeToString_length, md5Sum_length]
    · rw [hc]
      exact hexEncodeToString_chars _
  · simp [calculateMD5, ho]
  · simp [calculateMD5, ho, hr]

set_option maxRecDepth 100000 in
/-- C9 on the example tree: `a.jpg` has the digest of abc, `locked.jpg` does not open,
`torn.jpg` does not read to its end. -/
theorem calculateMD5_spec_witness :
    (calculateMD5 (exampleFS (.ok exampleTime)) "a.jpg" =
        (hexEncodeToString (md5Sum [97, 98, 99]), none)
      ∧ (md5Sum [97, 98, 99]).length = 16
      ∧ (calculateMD5 (exampleFS (.ok exampleTime)) "a.jpg").1.length = 32
      ∧ ∀ c ∈ (calculateMD5 (exampleFS (.ok exampleTime)) "a.jpg").1.toList,
          c ∈ "0123456789abcdef".toList)
    ∧ calculateMD5 (exampleFS (.ok exampleTime)) "locked.jpg" = ("", some "permission denied")
    ∧ calculateMD5 (exampleFS (.ok exampleTime)) "torn.jpg" = ("", some "unexpected EOF")
    ∧ hexEncodeToString (md5Sum [97, 98, 99]) = "900150983cd24fb0d6963f7d28e17f72" :=
  ⟨(calculateMD5_spec (exampleFS (.ok exampleTime)) "a.jpg").1 ⟨.ok [97, 98, 99]⟩
      [97, 98, 99] rfl rfl,
    (calculateMD5_spec (exampleFS (.ok exampleTime)) "locked.jpg").2.1 "permission denied" rfl,
    (calculateMD5_spec (exampleFS (.ok exampleTime)) "torn.jpg").2.2
      ⟨.error "unexpected EOF"⟩ "unexpected EOF" rfl rfl,
    by decide⟩

/-! ## Metadata -/

/-- C8: when the file opens and its metadata block decodes, `getExifInfo` returns no
error; the time returned is the time of the block when `DateTime` yields one and the zero
time otherwise; the model returned is the string of the model tag when the block has that
tag with a string value and the empty string otherwise. Neither field depends on the other. -/
theorem getExifInfo_decoded {ε : Type} (fs : FileSys ε) (filePath : String) (file : File ε)
    (x : Exif ε) (ho : fs.Open filePath = .ok file) (hd : fs.Decode file = .ok x) :
    (getExifInfo fs filePath).2.2 = none
    ∧ (∀ t, x.DateTime = .ok t → (getExifInfo fs filePath).1 = t)
    ∧ (∀ err, x.DateTime = .error err → (getExifInfo fs filePath).1 = Time.zero)
    ∧ (∀ tag v, x.GetModel = .ok tag → tag.StringVal = .ok v →
        (getExifInfo fs filePath).2.1 = v)
    ∧ (∀ err, x.GetModel = .error err → (getExifInfo fs filePath).2.1 = "")
    ∧ (∀ tag err, x.GetModel = .ok tag → tag.StringVal = .error err →
        (getExifInfo fs filePath).2.1 = "") := by
  refine ⟨?_, fun t ht => ?_, fun err ht => ?_, fun tag v hm hv => ?_, fun err hm => ?_,
    fun tag err hm hv => ?_⟩
  · simp [getExifInfo, ho, hd]
  · simp [getExifInfo, ho, hd, ht]
  · simp [getExifInfo, ho, hd, ht]
  · simp [getExifInfo, ho, hd, hm, hv]
  · simp [getExifInfo, ho, hd, hm]
  · simp [getExifInfo, ho, hd, hm, hv]

/-- C8 on the example tree: `a.jpg` with a block that has a time and a model, and with a
block that has the model alone. -/
theorem getExifInfo_decoded_witness :
    (getExifInfo (exampleFS (.ok exampleTime)) "a.jpg").2.2 = none
    ∧ (getExifInfo (exampleFS (.ok exampleTime)) "a.jpg").1 = exampleTime
    ∧ (getExifInfo (exampleFS (.ok exampleTime)) "a.jpg").2.1 = "CamA"
    ∧ (getExifInfo (exampleFS (.error "exif: tag not present")) "a.jpg").1 = Time.zero
    ∧ (getExifInfo (exampleFS (.error "exif: tag not present")) "a.jpg").2.1 = "CamA" :=
  ⟨(getExifInfo_decoded (exampleFS (.ok exampleTime)) "a.jpg" ⟨.ok [97, 98, 99]⟩
      ⟨.ok exampleTime, .ok ⟨.ok "CamA"⟩⟩ rfl rfl).1,
    (getExifInfo_decoded (exampleFS (.ok exampleTime)) "a.jpg" ⟨.ok [97, 98, 99]⟩
      ⟨.ok exampleTime, .ok ⟨.ok "CamA"⟩⟩ rfl rfl).2.1 exampleTime rfl,
    (getExifInfo_decoded (exampleFS (.ok exampleTime)) "a.jpg" ⟨.ok [97, 98, 99]⟩
      ⟨.ok exampleTime, .ok ⟨.ok "CamA"⟩⟩ rfl rfl).2.2.2.1 ⟨.ok "CamA"⟩ "CamA" rfl rfl,
    (getExifInfo_decoded (exampleFS (.error "exif: tag not present")) "a.jpg"
      ⟨.ok [97, 98, 99]⟩ ⟨.error "exif: tag not present", .ok ⟨.ok "CamA"⟩⟩ rfl rfl).2.2.1
      "exif: tag not present" rfl,
    (getExifInfo_decoded (exampleFS (.error "exif: tag not present")) "a.jpg"
      ⟨.ok [97, 98, 99]⟩ ⟨.error "exif: tag not present", .ok ⟨.ok "CamA"⟩⟩ rfl rfl).2.2.2.1
      ⟨.ok "CamA"⟩ "CamA" rfl rfl⟩

/-- When `getExifInfo` returns an error, it returns the zero time and the empty model. -/
theorem getExifInfo_failed {ε : Type} (fs : FileSys ε) (filePath : String) (err : ε)
    (h : (getExifInfo fs filePath).2.2 = some err) :
    (getExifInfo fs filePath).1 = Time.zero ∧ (getExifInfo fs filePath).2.1 = "" := by
  unfold getExifInfo at h ⊢
  cases ho : fs.Open filePath with
  | error e => simp
  | ok file =>
    simp only [ho] at h ⊢
    cases hd : fs.Decode file with
    | error e => simp
    | ok x => simp [hd] at h

/-- The time `getExifInfo` returns is the capture time of the file, or the zero time. -/
theorem getExifInfo_time {ε : Type} (fs : FileSys ε) (filePath : String) :
    (getExifInfo fs filePath).1 = (captureTime fs filePath).getD Time.zero := by
  cases ho : fs.Open filePath with
  | error e => simp [getExifInfo, captureTime, ho]
  | ok file =>
    cases hd : fs.Decode file with
    | error e => simp [getExifInfo, captureTime, ho, hd]
    | ok x =>
      cases hx : x.DateTime with
      | error e => simp [getExifInfo, captureTime, ho, hd, hx]
      | ok t => simp [getExifInfo, captureTime, ho, hd, hx]

/-! ## One step of the scan -/

/-- C7: for a photo entry whose hash is computed, when `getExifInfo` returns an error the
walk function does exactly what `SavePhoto` does with the record holding the path, the
hash, the zero time and the empty model: one insert call reaches the engine, and the state
and the error the step returns are those of that insert, not the extraction error. -/
theorem walkFn_metadata_failure {σ ε : Type} (timeString : Time → String) (db : Driver σ ε)
    (fs : FileSys ε) (s : σ) (entry : WalkEntry ε) (err : ε) (h : entry.err = none)
    (hp : isPhoto entry = true) (hh : (calculateMD5 fs entry.path).2 = none)
    (hx : (getExifInfo fs entry.path).2.2 = some err) :
    walkFn timeString db fs s entry =
        SavePhoto timeString db s ⟨entry.path, (calculateMD5 fs entry.path).1, Time.zero, ""⟩
    ∧ (walkFn timeString db.traced fs (s, []) entry).1.2 =
        [insertCall timeString ⟨entry.path, (calculateMD5 fs entry.path).1, Time.zero, ""⟩]
    ∧ (walkFn timeString db fs s entry).2 =
        (db.Exec s
          (savePhotoQuery timeString ⟨entry.path, (calculateMD5 fs entry.path).1, Time.zero, ""⟩)
          [.str entry.path, .str (calculateMD5 fs entry.path).1, .time Time.zero, .str ""]).2 := by
  have hphoto : photoAt fs entry = ⟨entry.path, (calculateMD5 fs entry.path).1, Time.zero, ""⟩ := by
    obtain ⟨h1, h2⟩ := getExifInfo_failed fs entry.path err hx
    simp [photoAt, h1, h2]
  refine ⟨?_, ?_, ?_⟩
  · rw [walkFn_save timeString db fs s entry h hp hh, hphoto]
  · rw [walkFn_save timeString db.traced fs (s, []) entry h hp hh, hphoto, SavePhoto_traced]
    rfl
  · rw [walkFn_save timeString db fs s entry h hp hh, hphoto]
    rfl

/-- C7 on the example tree: `b.png` has no metadata block. -/
theorem walkFn_metadata_failure_witness :
    (walkFn exampleTimeString exampleDB.traced (exampleFS (.ok exampleTime)) ([], [])
        ⟨"b.png", false, none⟩).1.2 =
      [insertCall exampleTimeString
        ⟨"b.png", (calculateMD5 (exampleFS (.ok exampleTime)) "b.png").1, Time.zero, ""⟩] :=
  (walkFn_metadata_failure exampleTimeString exampleDB (exampleFS (.ok exampleTime)) []
    ⟨"b.png", false, none⟩ "exif: failed to find exif intro marker" rfl (by decide)
    (by decide) (by decide)).2.1

/-- C10: an entry that is not a directory and whose extension is none of `.jpg`, `.jpeg`,
`.png` but becomes one of them in lower case is passed over: on every engine and every
file system, also one where no file opens, the walk function returns no error and the
state it was given, and no call reaches the engine. -/
theorem walkFn_extension_case_sensitive {σ ε : Type} (timeString : Time → String)
    (db : Driver σ ε) (fs : FileSys ε) (s : σ) (entry : WalkEntry ε) (h : entry.err = none)
    (hd : entry.isDir = false)
    (_hcase : lowerChars (Ext entry.path) ∈ [".jpg".toList, ".jpeg".toList, ".png".toList])
    (hne : Ext entry.path ∉ [".jpg", ".jpeg", ".png"]) :
    walkFn timeString db fs s entry = (s, none)
    ∧ (∀ err, walkFn timeString db ⟨fun _ => .error err, fs.Decode⟩ s entry = (s, none))
    ∧ walkFn timeString db.traced fs (s, []) entry = ((s, []), none) := by
  have hp : isPhoto entry = false := by
    simp only [isPhoto, hd, Bool.not_false, Bool.true_and, decide_eq_false_iff_not]
    exact hne
  exact ⟨walkFn_skip timeString db fs s entry h hp,
    fun err => walkFn_skip timeString db _ s entry h hp,
    walkFn_skip timeString db.traced fs (s, []) entry h hp⟩

/-- C10 on the example tree: `A.JPG` opens and has the contents of `a.jpg`. -/
theorem walkFn_extension_case_sensitive_witness :
    walkFn exampleTimeString exampleDB.traced (exampleFS (.ok exampleTime)) ([], [])
      ⟨"A.JPG", false, none⟩ = (([], []), none) :=
  (walkFn_extension_case_sensitive exampleTimeString exampleDB (exampleFS (.ok exampleTime)) []
    ⟨"A.JPG", false, none⟩ rfl rfl (by decide) (by decide)).2.2

/-! ## The capture time of a record -/

/-- C4, as the code has it: the record of a photo entry holds the capture time its metadata
carries, and the zero time `time.Time{}` when the metadata carries none; each is stored as
its `%s` rendering, spliced into the insert command. So the record of a file whose metadata
carries the time `T` and the record of a file without capture time differ in their capture
time exactly when `T`, instant and zone, is not the zero time, and their stored renderings
differ exactly when the rendering of `T` is not that of the zero time. -/
theorem takenDate_absent_is_zero_time {σ ε : Type} (timeString : Time → String)
    (db : Driver σ ε) (s : σ) (fs fs1 : FileSys ε) (entry entry1 : WalkEntry ε) (T : Time)
    (h : entry.err = none) (hp : isPhoto entry = true)
    (hh : (calculateMD5 fs entry.path).2 = none)
    (h1 : entry1.err = none) (hp1 : isPhoto entry1 = true)
    (hh1 : (calculateMD5 fs1 entry1.path).2 = none)
    (hT : captureTime fs entry.path = some T) (hnone : captureTime fs1 entry1.path = none) :
    (walkFn timeString db.traced fs (s, []) entry).1.2 = [insertCall timeString (photoAt fs entry)]
    ∧ (walkFn timeString db.traced fs1 (s, []) entry1).1.2 =
        [insertCall timeString (photoAt fs1 entry1)]
    ∧ (photoAt fs entry).TakenDate = T
    ∧ (photoAt fs1 entry1).TakenDate = Time.zero
    ∧ ((photoAt fs entry).TakenDate ≠ (photoAt fs1 entry1).TakenDate ↔ T ≠ Time.zero)
    ∧ (insertCall timeString (photoAt fs entry)).query =
        "INSERT INTO photos (file_path, md5_hash, taken_date, camera_model)\n VALUES ('"
          ++ entry.path ++ "', '" ++ (calculateMD5 fs entry.path).1 ++ "', '"
          ++ timeString T ++ "', '" ++ (getExifInfo fs entry.path).2.1 ++ "')"
    ∧ (insertCall timeString (photoAt fs1 entry1)).query =
        "INSERT INTO photos (file_path, md5_hash, taken_date, camera_model)\n VALUES ('"
          ++ entry1.path ++ "', '" ++ (calculateMD5 fs1 entry1.path).1 ++ "', '"
          ++ timeString Time.zero ++ "', '" ++ (getExifInfo fs1 entry1.path).2.1 ++ "')"
    ∧ (timeString (photoAt fs entry).TakenDate ≠ timeString (photoAt fs1 entry1).TakenDate
        ↔ timeString T ≠ timeString Time.zero) := by
  have ht : (photoAt fs entry).TakenDate = T := by
    simp [photoAt, getExifInfo_time, hT]
  have hz : (photoAt fs1 entry1).TakenDate = Time.zero := by
    simp [photoAt, getExifInfo_time, hnone]
  refine ⟨?_, ?_, ht, hz, ?_, ?_, ?_, ?_⟩
  · rw [walkFn_save timeString db.traced fs (s, []) entry h hp hh, SavePhoto_traced]
    rfl
  · rw [walkFn_save timeString db.traced fs1 (s, []) entry1 h1 hp1 hh1, SavePhoto_traced]
    rfl
  · rw [ht, hz]
  · simp only [insertCall]
    rw [savePhotoQuery_eq, ht]
    rfl
  · simp only [insertCall]
    rw [savePhotoQuery_eq, hz]
    rfl
  · rw [ht, hz]

/-- C4 on the example tree, `a.jpg` carrying the instant of the zero time in the zone of
Berlin and `b.png` carrying no time: the two capture times differ, and so do their
renderings. -/
theorem takenDate_absent_is_zero_time_witness :
    (photoAt (exampleFS (.ok berlinZeroInstant))
        (⟨"a.jpg", false, none⟩ : WalkEntry String)).TakenDate
      ≠ (photoAt (exampleFS (.ok berlinZeroInstant))
          (⟨"b.png", false, none⟩ : WalkEntry String)).TakenDate
    ∧ exampleTimeString (photoAt (exampleFS (.ok berlinZeroInstant))
          (⟨"a.jpg", false, none⟩ : WalkEntry String)).TakenDate
      ≠ exampleTimeString (photoAt (exampleFS (.ok berlinZeroInstant))
          (⟨"b.png", false, none⟩ : WalkEntry String)).TakenDate :=
  ⟨(takenDate_absent_is_zero_time exampleTimeString exampleDB []
      (exampleFS (.ok berlinZeroInstant)) (exampleFS (.ok berlinZeroInstant))
      ⟨"a.jpg", false, none⟩ ⟨"b.png", false, none⟩ berlinZeroInstant
      rfl (by decide) (by decide) rfl (by decide) (by decide) (by decide)
      (by decide)).2.2.2.2.1.mpr (by decide),
    (takenDate_absent_is_zero_time exampleTimeString exampleDB []
      (exampleFS (.ok berlinZeroInstant)) (exampleFS (.ok berlinZeroInstant))
      ⟨"a.jpg", false, none⟩ ⟨"b.png", false, none⟩ berlinZeroInstant
      rfl (by decide) (by decide) rfl (by decide) (by decide) (by decide)
      (by decide)).2.2.2.2.2.2.2.mpr (by decide)⟩

set_option maxRecDepth 100000 in
/-- C4, the claim as stated fails: where the local zone is UTC, a file whose metadata
carries the time January 1 of year 1, 00:00:00, and the same file with a metadata block
that has no time, get the same insert call, command text and arguments, with the same
capture time in it. -/
theorem takenDate_zero_time_collides :
    captureTime (exampleFS (.ok Time.zero)) "a.jpg" = some Time.zero
    ∧ captureTime (exampleFS (.error "exif: tag not present")) "a.jpg" = none
    ∧ (walkFn exampleTimeString exampleDB.traced (exampleFS (.ok Time.zero)) ([], [])
        ⟨"a.jpg", false, none⟩).1.2 =
      (walkFn exampleTimeString exampleDB.traced (exampleFS (.error "exif: tag not present"))
        ([], []) ⟨"a.jpg", false, none⟩).1.2
    ∧ (walkFn exampleTimeString exampleDB.traced (exampleFS (.ok Time.zero)) ([], [])
        ⟨"a.jpg", false, none⟩).1.2 =
      [⟨.exec,
        "INSERT INTO photos (file_path, md5_hash, taken_date, camera_model)\n VALUES ('a.jpg', '900150983cd24fb0d6963f7d28e17f72', '0001-01-01 00:00:00 +0000 UTC', 'CamA')",
        [.str "a.jpg", .str "900150983cd24fb0d6963f7d28e17f72", .time Time.zero,
          .str "CamA"]⟩] := by
  decide

/-! ## The whole scan -/

/-- A step without error either passes the entry over or is its insert. -/
theorem walkFn_none_cases {σ ε : Type} (timeString : Time → String) (db : Driver σ ε)
    (fs : FileSys ε) (s : σ) (entry : WalkEntry ε)
    (hok : (walkFn timeString db fs s entry).2 = none) :
    entry.err = none
    ∧ ((isPhoto entry = false ∧ walkFn timeString db fs s entry = (s, none))
      ∨ (isPhoto entry = true ∧ (calculateMD5 fs entry.path).2 = none
        ∧ walkFn timeString db fs s entry = SavePhoto timeString db s (photoAt fs entry))) := by
  cases he : entry.err with
  | some err =>
    rw [walkFn_err timeString db fs s entry err he] at hok
    simp at hok
  | none =>
    refine ⟨rfl, ?_⟩
    cases hp : isPhoto entry with
    | false => exact Or.inl ⟨rfl, walkFn_skip timeString db fs s entry he hp⟩
    | true =>
      cases hh : (calculateMD5 fs entry.path).2 with
      | some err =>
        rw [walkFn_hash_err timeString db fs s entry err he hp hh] at hok
        simp at hok
      | none => exact Or.inr ⟨rfl, rfl, walkFn_save timeString db fs s entry he hp hh⟩

/-- A step with an error returns the walk error, the hash error or the insert error. -/
theorem walkFn_some_cases {σ ε : Type} (timeString : Time → String) (db : Driver σ ε)
    (fs : FileSys ε) (s : σ) (entry : WalkEntry ε) (err : ε)
    (hk : (walkFn timeString db fs s entry).2 = some err) :
    (entry.err = some err ∧ walkFn timeString db fs s entry = (s, some err))
    ∨ (entry.err = none ∧ isPhoto entry = true ∧ (calculateMD5 fs entry.path).2 = some err
      ∧ walkFn timeString db fs s entry = (s, some err))
    ∨ (entry.err = none ∧ isPhoto entry = true ∧ (calculateMD5 fs entry.path).2 = none
      ∧ walkFn timeString db fs s entry = SavePhoto timeString db s (photoAt fs entry)
      ∧ (SavePhoto timeString db s (photoAt fs entry)).2 = some err) := by
  cases he : entry.err with
  | some e =>
    have hw := walkFn_err timeString db fs s entry e he
    rw [hw] at hk
    simp only [Option.some.injEq] at hk
    subst hk
    exact Or.inl ⟨rfl, hw⟩
  | none =>
    cases hp : isPhoto entry with
    | false =>
      rw [walkFn_skip timeString db fs s entry he hp] at hk
      simp at hk
    | true =>
      cases hh : (calculateMD5 fs entry.path).2 with
      | some e =>
        have hw := walkFn_hash_err timeString db fs s entry e he hp hh
        rw [hw] at hk
        simp only [Option.some.injEq] at hk
        subst hk
        exact Or.inr (Or.inl ⟨rfl, rfl, rfl, hw⟩)
      | none =>
        have hw := walkFn_save timeString db fs s entry he hp hh
        rw [hw] at hk
        exact Or.inr (Or.inr ⟨rfl, rfl, rfl, hw, hk⟩)

/-- After a step without error the scan goes on with the rest. -/
theorem scanPhotos_cons_ok {σ ε : Type} (timeString : Time → String) (db : Driver σ ε)
    (fs : FileSys ε) (s : σ) (entry : WalkEntry ε) (rest : List (WalkEntry ε))
    (hok : (walkFn timeString db fs s entry).2 = none) :
    scanPhotos timeString db fs s (entry :: rest) =
      scanPhotos timeString db fs (walkFn timeString db fs s entry).1 rest := by
  unfold scanPhotos
  rcases hw : walkFn timeString db fs s entry with ⟨s1, e⟩
  rw [hw] at hok
  simp only at hok
  subst hok
  simp [Walk, hw]

/-- A step with an error ends the scan with that error. -/
theorem scanPhotos_cons_err {σ ε : Type} (timeString : Time → String) (db : Driver σ ε)
    (fs : FileSys ε) (s : σ) (entry : WalkEntry ε) (rest : List (WalkEntry ε)) (err : ε)
    (hk : (walkFn timeString db fs s entry).2 = some err) :
    scanPhotos timeString db fs s (entry :: rest) =
      ((walkFn timeString db fs s entry).1, some err) := by
  unfold scanPhotos
  rcases hw : walkFn timeString db fs s entry with ⟨s1, e⟩
  rw [hw] at hk
  simp only at hk
  subst hk
  simp [Walk, hw]

/-- A scan without error has a first step without error. -/
theorem scanPhotos_cons_none {σ ε : Type} (timeString : Time → String) (db : Driver σ ε)
    (fs : FileSys ε) (s : σ) (entry : WalkEntry ε) (rest : List (WalkEntry ε))
    (hok : (scanPhotos timeString db fs s (entry :: rest)).2 = none) :
    (walkFn timeString db fs s entry).2 = none := by
  cases hw : (walkFn timeString db fs s entry).2 with
  | none => rfl
  | some err =>
    rw [scanPhotos_cons_err timeString db fs s entry rest err hw] at hok
    simp at hok

/-- A scan that passes a prefix without error goes on from the state reached. -/
theorem scanPhotos_append {σ ε : Type} (timeString : Time → String) (db : Driver σ ε)
    (fs : FileSys ε) (s : σ) (pre rest : List (WalkEntry ε))
    (hpre : (scanPhotos timeString db fs s pre).2 = none) :
    scanPhotos timeString db fs s (pre ++ rest) =
      scanPhotos timeString db fs (scanPhotos timeString db fs s pre).1 rest := by
  induction pre generalizing s with
  | nil => rfl
  | cons entry pre ih =>
    have hw := scanPhotos_cons_none timeString db fs s entry pre hpre
    rw [scanPhotos_cons_ok timeString db fs s entry pre hw] at hpre ⊢
    rw [List.cons_append, scanPhotos_cons_ok timeString db fs s entry _ hw]
    exact ih _ hpre

/-- A scan without error leaves the state after the inserts for its photo entries; none of
its entries has a walk error or a hash error. -/
theorem scanPhotos_ok {σ ε : Type} (timeString : Time → String) (db : Driver σ ε)
    (fs : FileSys ε) (s : σ) (walk : List (WalkEntry ε))
    (hok : (scanPhotos timeString db fs s walk).2 = none) :
    (scanPhotos timeString db fs s walk).1 = afterInserts timeString db fs s walk
    ∧ ∀ e ∈ walk, e.err = none ∧ (isPhoto e = true → (calculateMD5 fs e.path).2 = none) := by
  induction walk generalizing s with
  | nil => exact ⟨rfl, fun e he => absurd he (List.not_mem_nil e)⟩
  | cons entry walk ih =>
    have hw := scanPhotos_cons_none timeString db fs s entry walk hok
    rw [scanPhotos_cons_ok timeString db fs s entry walk hw] at hok ⊢
    obtain ⟨ih1, ih2⟩ := ih _ hok
    obtain ⟨he, hc⟩ := walkFn_none_cases timeString db fs s entry hw
    rcases hc with ⟨hp, hs⟩ | ⟨hp, hh, hs⟩
    · refine ⟨?_, ?_⟩
      · rw [ih1, hs]
        simp [afterInserts, List.filter_cons, hp]
      · intro e hmem
        rcases List.mem_cons.mp hmem with rfl | hmem
        · exact ⟨he, fun h => by rw [hp] at h; simp at h⟩
        · exact ih2 e hmem
    · refine ⟨?_, ?_⟩
      · rw [ih1, hs]
        simp [afterInserts, List.filter_cons, hp]
      · intro e hmem
        rcases List.mem_cons.mp hmem with rfl | hmem
        · exact ⟨he, fun _ => hh⟩
        · exact ih2 e hmem

/-- A step on an observed engine is the step on the engine, with its insert call recorded
when it gets that far. -/
theorem walkFn_traced {σ ε : Type} (timeString : Time → String) (db : Driver σ ε)
    (fs : FileSys ε) (st : σ × List Call) (entry : WalkEntry ε) :
    walkFn timeString db.traced fs st entry =
      (((walkFn timeString db fs st.1 entry).1,
        st.2 ++ (if reachesInsert fs entry then [insertCall timeString (photoAt fs entry)]
          else [])),
        (walkFn timeString db fs st.1 entry).2) := by
  cases he : entry.err with
  | some err =>
    rw [walkFn_err timeString db.traced fs st entry err he,
      walkFn_err timeString db fs st.1 entry err he]
    simp [reachesInsert, he]
  | none =>
    cases hp : isPhoto entry with
    | false =>
      rw [walkFn_skip timeString db.traced fs st entry he hp,
        walkFn_skip timeString db fs st.1 entry he hp]
      simp [reachesInsert, hp]
    | true =>
      cases hh : (calculateMD5 fs entry.path).2 with
      | some err =>
        rw [walkFn_hash_err timeString db.traced fs st entry err he hp hh,
          walkFn_hash_err timeString db fs st.1 entry err he hp hh]
        simp [reachesInsert, hh]
      | none =>
        rw [walkFn_save timeString db.traced fs st entry he hp hh,
          walkFn_save timeString db fs st.1 entry he hp hh, SavePhoto_traced]
        simp [reachesInsert, he, hp, hh, insertCall]

/-- Observing the engine changes neither the error nor the state of a scan. -/
theorem scanPhotos_traced {σ ε : Type} (timeString : Time → String) (db : Driver σ ε)
    (fs : FileSys ε) (st : σ × List Call) (walk : List (WalkEntry ε)) :
    (scanPhotos timeString db.traced fs st walk).2 = (scanPhotos timeString db fs st.1 walk).2
    ∧ (scanPhotos timeString db.traced fs st walk).1.1 =
        (scanPhotos timeString db fs st.1 walk).1 := by
  induction walk generalizing st with
  | nil => exact ⟨rfl, rfl⟩
  | cons entry walk ih =>
    have ht := walkFn_traced timeString db fs st entry
    cases hw : (walkFn timeString db fs st.1 entry).2 with
    | none =>
      have hw1 : (walkFn timeString db.traced fs st entry).2 = none := by rw [ht]; exact hw
      rw [scanPhotos_cons_ok timeString db.traced fs st entry walk hw1,
        scanPhotos_cons_ok timeString db fs st.1 entry walk hw]
      have := ih (walkFn timeString db.traced fs st entry).1
      rw [ht] at this
      rw [ht]
      exact this
    | some err =>
      have hw1 : (walkFn timeString db.traced fs st entry).2 = some err := by rw [ht]; exact hw
      rw [scanPhotos_cons_err timeString db.traced fs st entry walk err hw1,
        scanPhotos_cons_err timeString db fs st.1 entry walk err hw]
      rw [ht]
      exact ⟨rfl, rfl⟩

/-- The calls of a scan without error: one insert for each photo entry, in order. -/
theorem scanPhotos_traced_calls {σ ε : Type} (timeString : Time → String) (db : Driver σ ε)
    (fs : FileSys ε) (st : σ × List Call) (walk : List (WalkEntry ε))
    (hok : (scanPhotos timeString db.traced fs st walk).2 = none) :
    (scanPhotos timeString db.traced fs st walk).1.2 =
      st.2 ++ (walk.filter isPhoto).map (fun e => insertCall timeString (photoAt fs e)) := by
  induction walk generalizing st with
  | nil => simp [scanPhotos, Walk]
  | cons entry walk ih =>
    have hw := scanPhotos_cons_none timeString db.traced fs st entry walk hok
    rw [scanPhotos_cons_ok timeString db.traced fs st entry walk hw] at hok ⊢
    rw [ih _ hok]
    obtain ⟨he, hc⟩ := walkFn_none_cases timeString db.traced fs st entry hw
    rcases hc with ⟨hp, hs⟩ | ⟨hp, hh, hs⟩
    · rw [hs]
      simp [List.filter_cons, hp]
    · rw [hs, SavePhoto_traced]
      simp [List.filter_cons, hp, insertCall]

/-- A hash computed without error is the hash of the bytes of the file. -/
theorem calculateMD5_ok {ε : Type} (fs : FileSys ε) (filePath : String)
    (h : (calculateMD5 fs filePath).2 = none) :
    ∃ file bytes, fs.Open filePath = .ok file ∧ file.contents = .ok bytes
      ∧ (calculateMD5 fs filePath).1 = hexEncodeToString (md5Sum bytes) := by
  cases ho : fs.Open filePath with
  | error err => simp [calculateMD5, ho] at h
  | ok file =>
    cases hr : file.contents with
    | error err => simp [calculateMD5, ho, hr] at h
    | ok bytes => exact ⟨file, bytes, rfl, hr, by simp [calculateMD5, ho, hr]⟩

/-- C6: when a scan returns no error, the calls that reached the engine are exactly one
insert call for each entry of the walk that is not a directory and has extension `.jpg`,
`.jpeg` or `.png`, in the order of the walk; the call for an entry carries the path of the
entry and the hex MD5 digest of the bytes of its file as its first two arguments; a
directory or an entry with another extension is not among the entries with a call. -/
theorem scanPhotos_insert_attempts {σ ε : Type} (timeString : Time → String)
    (db : Driver σ ε) (fs : FileSys ε) (s : σ) (walk : List (WalkEntry ε))
    (hok : (scanPhotos timeString db.traced fs (s, []) walk).2 = none) :
    (scanPhotos timeString db.traced fs (s, []) walk).1.2 =
      (walk.filter isPhoto).map (fun e => insertCall timeString (photoAt fs e))
    ∧ (∀ e ∈ walk.filter isPhoto, ∃ file bytes,
        fs.Open e.path = .ok file ∧ file.contents = .ok bytes
        ∧ insertCall timeString (photoAt fs e) =
          ⟨.exec, savePhotoQuery timeString (photoAt fs e),
            [.str e.path, .str (hexEncodeToString (md5Sum bytes)),
              .time (getExifInfo fs e.path).1, .str (getExifInfo fs e.path).2.1]⟩)
    ∧ (∀ e ∈ walk, e.isDir = true ∨ Ext e.path ∉ [".jpg", ".jpeg", ".png"] →
        e ∉ walk.filter isPhoto)
    ∧ (∀ e ∈ walk, e.err = none) := by
  have hcalls := scanPhotos_traced_calls timeString db fs (s, []) walk hok
  obtain ⟨_, hall⟩ := scanPhotos_ok timeString db.traced fs (s, []) walk hok
  refine ⟨by simpa using hcalls, ?_, ?_, fun e he => (hall e he).1⟩
  · intro e he
    obtain ⟨hmem, hp⟩ := List.mem_filter.mp he
    obtain ⟨file, bytes, ho, hr, hc⟩ := calculateMD5_ok fs e.path ((hall e hmem).2 hp)
    refine ⟨file, bytes, ho, hr, ?_⟩
    simp [insertCall, savePhotoArgs, photoAt, hc]
  · intro e _ hcond he
    obtain ⟨_, hp⟩ := List.mem_filter.mp he
    simp only [isPhoto, Bool.and_eq_true, Bool.not_eq_true', decide_eq_true_eq] at hp
    rcases hcond with hd | hx
    · rw [hp.1] at hd
      simp at hd
    · exact hx hp.2

set_option maxRecDepth 100000 in
/-- C6 on the example tree: the walk of the directory with `a.jpg`, `b.png` and `c.txt`. -/
theorem scanPhotos_insert_attempts_witness :
    (scanPhotos exampleTimeString exampleDB.traced (exampleFS (.ok exampleTime)) ([], [])
        [⟨".", true, none⟩, ⟨"a.jpg", false, none⟩, ⟨"b.png", false, none⟩,
          ⟨"c.txt", false, none⟩]).1.2 =
      ([⟨".", true, none⟩, ⟨"a.jpg", false, none⟩, ⟨"b.png", false, none⟩,
          ⟨"c.txt", false, none⟩].filter isPhoto).map
        (fun e => insertCall exampleTimeString (photoAt (exampleFS (.ok exampleTime)) e)) :=
  (scanPhotos_insert_attempts exampleTimeString exampleDB (exampleFS (.ok exampleTime)) []
    [⟨".", true, none⟩, ⟨"a.jpg", false, none⟩, ⟨"b.png", false, none⟩,
      ⟨"c.txt", false, none⟩] (by decide)).1

/-- C5 (the code departs from it in the catalog it leaves): when the entries before entry k
pass without error and the step at entry k returns the error `err`, the scan returns `err`
and does the same whatever entries follow k; `err` is the walk error of entry k, or the
error of `calculateMD5` on it, or the error of its insert. After a walk or hash error the
engine is in the state the inserts for the photo entries before k led to; after an insert
error it is in the state the failed command left, which the scan takes as it is; and each
of those inserts did to the catalog what the engine made of its command text. The calls
that reached the engine are the inserts for the photo entries before k and, when entry k
got as far as its insert, that one insert: none for a later entry. -/
theorem scanPhotos_first_failure {σ ε : Type} (timeString : Time → String) (db : Driver σ ε)
    (fs : FileSys ε) (s : σ) (pre : List (WalkEntry ε)) (entry : WalkEntry ε)
    (rest : List (WalkEntry ε)) (err : ε)
    (hpre : (scanPhotos timeString db fs s pre).2 = none)
    (hk : (walkFn timeString db fs (scanPhotos timeString db fs s pre).1 entry).2 = some err) :
    (scanPhotos timeString db fs s (pre ++ entry :: rest)).2 = some err
    ∧ scanPhotos timeString db fs s (pre ++ entry :: rest) =
        scanPhotos timeString db fs s (pre ++ [entry])
    ∧ ((entry.err = some err
        ∧ (scanPhotos timeString db fs s (pre ++ entry :: rest)).1 =
            afterInserts timeString db fs s pre)
      ∨ (entry.err = none ∧ isPhoto entry = true
        ∧ (calculateMD5 fs entry.path).2 = some err
        ∧ (scanPhotos timeString db fs s (pre ++ entry :: rest)).1 =
            afterInserts timeString db fs s pre)
      ∨ (entry.err = none ∧ isPhoto entry = true ∧ (calculateMD5 fs entry.path).2 = none
        ∧ db.Exec (afterInserts timeString db fs s pre)
            (savePhotoQuery timeString (photoAt fs entry)) (savePhotoArgs (photoAt fs entry)) =
          ((scanPhotos timeString db fs s (pre ++ entry :: rest)).1, some err)))
    ∧ (scanPhotos timeString db.traced fs (s, []) (pre ++ entry :: rest)).1.2 =
      (pre.filter isPhoto).map (fun e => insertCall timeString (photoAt fs e))
        ++ (if reachesInsert fs entry then [insertCall timeString (photoAt fs entry)] else []) := by
  have hs1 := (scanPhotos_ok timeString db fs s pre hpre).1
  have hcases := walkFn_some_cases timeString db fs _ entry err hk
  have hfin : ∀ l, scanPhotos timeString db fs s (pre ++ entry :: l) =
      ((walkFn timeString db fs (scanPhotos timeString db fs s pre).1 entry).1, some err) := by
    intro l
    rw [scanPhotos_append timeString db fs s pre _ hpre,
      scanPhotos_cons_err timeString db fs _ entry l err hk]
  refine ⟨?_, ?_, ?_, ?_⟩
  · rw [hfin rest]
  · rw [hfin rest, hfin []]
  · rw [hfin rest, ← hs1]
    rcases hcases with ⟨he, hw⟩ | ⟨he, hp, hh, hw⟩ | ⟨he, hp, hh, hw, hsave⟩
    · exact Or.inl ⟨he, by rw [hw]⟩
    · exact Or.inr (Or.inl ⟨he, hp, hh, by rw [hw]⟩)
    · refine Or.inr (Or.inr ⟨he, hp, hh, ?_⟩)
      rw [hw]
      exact Prod.ext rfl hsave
  · obtain ⟨ht2, ht1⟩ := scanPhotos_traced timeString db fs (s, []) pre
    have hpre1 : (scanPhotos timeString db.traced fs (s, []) pre).2 = none := by
      rw [ht2]
      exact hpre
    have hk1 : (walkFn timeString db.traced fs
        (scanPhotos timeString db.traced fs (s, []) pre).1 entry).2 = some err := by
      rw [walkFn_traced, ht1]
      exact hk
    rw [scanPhotos_append timeString db.traced fs (s, []) pre _ hpre1,
      scanPhotos_cons_err timeString db.traced fs _ entry rest err hk1, walkFn_traced,
      scanPhotos_traced_calls timeString db fs (s, []) pre hpre1]
    simp

set_option maxRecDepth 100000 in
/-- C5 at a file name that holds a quote and a statement separator, met after `a.jpg` and
before `b.png` on a catalog with one row: its command is the insert of the row
('m', 'h', 't', 'm') followed by the statement BOGUS; the engine fails at BOGUS with that
row kept, the scan returns the error, and the catalog holds a row more than the prior row
and the row of `a.jpg`. -/
theorem scanPhotos_first_failure_witness :
    (scanPhotos exampleTimeString strayRowDB emptyFilesFS
        [[.str "old.jpg", .str "0cc175b9c0f1b6a831c399e269772661", .time Time.zero, .str ""]]
        ([⟨".", true, none⟩, ⟨"a.jpg", false, none⟩]
          ++ ⟨"m', 'h', 't', 'm'); BOGUS; --.jpg", false, none⟩
          :: [⟨"b.png", false, none⟩])).2 = some "near BOGUS: syntax error"
    ∧ savePhotoQuery exampleTimeString
        (photoAt emptyFilesFS ⟨"m', 'h', 't', 'm'); BOGUS; --.jpg", false, none⟩) =
      "INSERT INTO photos (file_path, md5_hash, taken_date, camera_model)\n VALUES ('m', 'h', 't', 'm'); BOGUS; --.jpg', 'd41d8cd98f00b204e9800998ecf8427e', '0001-01-01 00:00:00 +0000 UTC', '')"
    ∧ (scanPhotos exampleTimeString strayRowDB emptyFilesFS
        [[.str "old.jpg", .str "0cc175b9c0f1b6a831c399e269772661", .time Time.zero, .str ""]]
        ([⟨".", true, none⟩, ⟨"a.jpg", false, none⟩]
          ++ ⟨"m', 'h', 't', 'm'); BOGUS; --.jpg", false, none⟩
          :: [⟨"b.png", false, none⟩])).1 =
      [[.str "old.jpg", .str "0cc175b9c0f1b6a831c399e269772661", .time Time.zero, .str ""],
        [.str "a.jpg", .str "d41d8cd98f00b204e9800998ecf8427e", .time Time.zero, .str ""],
        [.str "m", .str "h", .str "t", .str "m"]]
    ∧ afterInserts exampleTimeString strayRowDB emptyFilesFS
        [[.str "old.jpg", .str "0cc175b9c0f1b6a831c399e269772661", .time Time.zero, .str ""]]
        [⟨".", true, none⟩, ⟨"a.jpg", false, none⟩] =
      [[.str "old.jpg", .str "0cc175b9c0f1b6a831c399e269772661", .time Time.zero, .str ""],
        [.str "a.jpg", .str "d41d8cd98f00b204e9800998ecf8427e", .time Time.zero, .str ""]] :=
  ⟨(scanPhotos_first_failure exampleTimeString strayRowDB emptyFilesFS
      [[.str "old.jpg", .str "0cc175b9c0f1b6a831c399e269772661", .time Time.zero, .str ""]]
      [⟨".", true, none⟩, ⟨"a.jpg", false, none⟩]
      ⟨"m', 'h', 't', 'm'); BOGUS; --.jpg", false, none⟩
      [⟨"b.png", false, none⟩] "near BOGUS: syntax error" (by decide) (by decide)).1,
    by decide, by decide, by decide⟩

end PhotosDB
